import Mathlib

/-
Verification of the clawdbot knowledge-guided agentic control loop.

Shallow embedding of:
  * src/knowledge_manager.py  (KnowledgeManager: workflows, failure records)
  * src/clawdbot_v12.py       (Tool.execute, LoopDetector, AgenticLoop.run)

Conventions of the embedding:
  * Python dicts that are used as ordered string-keyed maps become
    association lists `List (String × β)`; `alookup` is `d.get(k)` /
    `k in d` and `aset` is `d[k] = v` (replace the existing binding in
    place, otherwise append, exactly like insertion-ordered dicts).
  * Python floats become `ℚ`; the literals 0.05, 0.1, 0.7, 0.8 of the
    source are written mkRat 5 100, mkRat 1 10, mkRat 7 10, mkRat 8 10.
  * `datetime.now().isoformat()` timestamps become an abstract `Time := Nat`
    passed in by the caller.
  * Fallible or exception-raising code returns `Option` / `Except`.
-/

namespace Clawdbot

abbrev Time := Nat

/-- Association-list model of `d.get(k)` on a Python dict. -/
def alookup {β : Type} : List (String × β) → String → Option β
  | [], _ => none
  | (k', v) :: rest, k => if k' = k then some v else alookup rest k

/-- Association-list model of `d[k] = v` on a Python dict: replace the
binding in place if the key exists, otherwise append it at the end. -/
def aset {β : Type} : List (String × β) → String → β → List (String × β)
  | [], k, v => [(k, v)]
  | (k', v') :: rest, k, v =>
    if k' = k then (k', v) :: rest else (k', v') :: aset rest k v

/-- Check that `pat` occurs at the front of `s` (character-list version). -/
def startsWithCs : List Char → List Char → Bool
  | [], _ => true
  | _ :: _, [] => false
  | p :: ps, c :: cs => p == c && startsWithCs ps cs

/-- Replace every non-overlapping occurrence of the pattern `p :: ps`,
scanning left to right, as Python `str.replace` does.  The `fuel`
argument (instantiated with the length of the string) makes the
recursion structural. -/
def replaceAllCs (p : Char) (ps rep : List Char) : Nat → List Char → List Char
  | 0, l => l
  | _ + 1, [] => []
  | fuel + 1, c :: cs =>
    if startsWithCs (p :: ps) (c :: cs) then
      rep ++ replaceAllCs p ps rep fuel (cs.drop ps.length)
    else
      c :: replaceAllCs p ps rep fuel cs

/-- Python `s.replace(pat, rep)`: replace every non-overlapping
occurrence of `pat`, scanning left to right.  (The empty-pattern case
never arises in the embedded code.) -/
def pyReplace (s pat rep : String) : String :=
  match pat.data with
  | [] => s
  | p :: ps => String.mk (replaceAllCs p ps rep.data s.data.length s.data)

/-- The site normalization used throughout knowledge_manager.py:
`site.replace("www.", "")`.  Note that Python `str.replace` removes
EVERY occurrence of the substring, not just a leading prefix. -/
def normalizeSite (s : String) : String := pyReplace s "www." ""

/-- A stored workflow (knowledge_manager.py, record_success).  All
fields are present on every workflow the embedded operations create, so
the `.get(key, default)` fallbacks of the source are never taken. -/
structure Workflow (α : Type) where
  confidence : ℚ
  learned_from : String
  success_count : Nat
  fail_count : Nat
  last_success : Time
  steps : List α
deriving DecidableEq, Repr

/-- Per-site knowledge: the `workflows` dict (keyed by task) and the
`alt_domains` list; a site created by `sites.setdefault(site,
{"workflows": {}})` has no `alt_domains` key, which reads back as `[]`. -/
structure SiteData (α : Type) where
  workflows : List (String × Workflow α)
  alt_domains : List String
deriving DecidableEq, Repr

/-- One entry of `learned_failures` (knowledge_manager.py,
record_failure).  A newly appended record has no `last_seen` key, hence
`last_seen : Option Time` starting at `none`. -/
structure FailureRecord where
  site : String
  task : String
  wrong_approach : String
  why_failed : String
  correct_approach : String
  learned_at : Time
  confidence : ℚ
  last_seen : Option Time
deriving DecidableEq, Repr

/-- The knowledge store: the parts of `self.knowledge` that the embedded
operations read or write (`sites` and `learned_failures`). -/
structure Knowledge (α : Type) where
  sites : List (String × SiteData α)
  learned_failures : List FailureRecord
deriving DecidableEq, Repr

/-- Confidence bump of an existing workflow on success:
`min(1.0, confidence + 0.05)`, `success_count += 1`, stamp
`last_success`. -/
def bump_workflow {α : Type} (now : Time) (w : Workflow α) : Workflow α :=
  { w with
    confidence := min 1 (w.confidence + mkRat 5 100)
    success_count := w.success_count + 1
    last_success := now }

/-- A workflow freshly learned from success: confidence 0.7,
`learned_from = "success"`, one success, no failures. -/
def new_workflow {α : Type} (now : Time) (steps : List α) : Workflow α :=
  ⟨mkRat 7 10, "success", 1, 0, now, steps⟩

/-- KnowledgeManager.record_success: normalize the site, `setdefault`
the site entry and its workflows dict, then either bump the existing
workflow for the task or append a new one built from `steps`.  When the
site is absent, `setdefault` supplies `{"workflows": {}}` (no
alt_domains key), the task cannot be present in the empty dict, and the
new workflow is appended to it. -/
def record_success {α : Type} (now : Time) (site task : String)
    (steps : List α) (k : Knowledge α) : Knowledge α :=
  match alookup k.sites (normalizeSite site) with
  | some sd =>
    { k with
      sites := aset k.sites (normalizeSite site)
        { workflows :=
            match alookup sd.workflows task with
            | some w => aset sd.workflows task (bump_workflow now w)
            | none => sd.workflows ++ [(task, new_workflow now steps)]
          alt_domains := sd.alt_domains } }
  | none =>
    { k with
      sites := aset k.sites (normalizeSite site)
        { workflows := [(task, new_workflow now steps)], alt_domains := [] } }

/-- Confidence drop of a workflow on failure:
`max(0.1, confidence - 0.1)`, `fail_count += 1`. -/
def drop_workflow_conf {α : Type} (w : Workflow α) : Workflow α :=
  { w with
    confidence := max (mkRat 1 10) (w.confidence - mkRat 1 10)
    fail_count := w.fail_count + 1 }

/-- KnowledgeManager.record_workflow_failure: normalize the site; if the
site and the task's workflow exist, lower the confidence and bump
`fail_count`; otherwise do nothing (no entry is ever created here). -/
def record_workflow_failure {α : Type} (site task : String)
    (k : Knowledge α) : Knowledge α :=
  match alookup k.sites (normalizeSite site) with
  | none => k
  | some sd =>
    match alookup sd.workflows task with
    | none => k
    | some w =>
      { k with
        sites := aset k.sites (normalizeSite site)
          { workflows := aset sd.workflows task (drop_workflow_conf w)
            alt_domains := sd.alt_domains } }

/-- The deduplication key of record_failure: same (site, task,
wrong_approach) triple (site already normalized by the caller). -/
def matchesTriple (site task wrong : String) (f : FailureRecord) : Bool :=
  f.site == site && f.task == task && f.wrong_approach == wrong

/-- The scan-and-update loop of record_failure: update the FIRST record
matching the triple (`min(1.0, confidence + 0.1)`, stamp `last_seen`)
and return the updated list, or `none` when no record matches. -/
def updateFailures (now : Time) (site task wrong : String) :
    List FailureRecord → Option (List FailureRecord)
  | [] => none
  | f :: fs =>
    if matchesTriple site task wrong f then
      some ({ f with confidence := min 1 (f.confidence + mkRat 1 10), last_seen := some now } :: fs)
    else
      (updateFailures now site task wrong fs).map (f :: ·)

/-- KnowledgeManager.record_failure: normalize the site; raise the
confidence of an already-known (site, task, wrong_approach) record and
stamp `last_seen`, otherwise append a fresh record at confidence 0.8. -/
def record_failure {α : Type} (now : Time) (site task wrong why correct : String)
    (k : Knowledge α) : Knowledge α :=
  match updateFailures now (normalizeSite site) task wrong k.learned_failures with
  | some fs => { k with learned_failures := fs }
  | none =>
    { k with
      learned_failures :=
        k.learned_failures
          ++ [⟨normalizeSite site, task, wrong, why, correct, now, mkRat 8 10, none⟩] }

/-- The direct (exact-key) workflow lookup used by record_success /
record_workflow_failure and by the first phase of get_site_workflow:
`sites[normalized site]["workflows"][task]`. -/
def wfAt {α : Type} (k : Knowledge α) (site task : String) : Option (Workflow α) :=
  match alookup k.sites (normalizeSite site) with
  | some sd => alookup sd.workflows task
  | none => none

/-- The alt-domains fallback loop of get_site_workflow: walk the sites
in dict order; at a site whose `alt_domains` contains the normalized
site, return its workflow for the task if it has one, otherwise keep
scanning. -/
def aliasFind {α : Type} : List (String × SiteData α) → String → String → Option (Workflow α)
  | [], _, _ => none
  | (_, sd) :: rest, s, task =>
    if s ∈ sd.alt_domains then
      match alookup sd.workflows task with
      | some w => some w
      | none => aliasFind rest s task
    else aliasFind rest s task

/-- KnowledgeManager.get_site_workflow: normalize the site with
`replace("www.", "")`, try the exact site key, then fall back to the
alt-domains scan, else `none`. -/
def get_site_workflow {α : Type} (k : Knowledge α) (site task : String) :
    Option (Workflow α) :=
  match wfAt k site task with
  | some w => some w
  | none => aliasFind k.sites (normalizeSite site) task

/-- The spec's site-normalization reading: trim only a LEADING "www."
prefix and leave the rest of the string unchanged.  Written from the
spec's words, to be compared against `normalizeSite`. -/
def specTrimWww (s : String) : String :=
  match s.data with
  | 'w' :: 'w' :: 'w' :: '.' :: rest => String.mk rest
  | _ => s

/-- The spec's description of getWorkflow, written from the spec's
words with its leading-prefix normalization: normalize, check an exact
match, then check declared alias domains, before returning nothing. -/
def specGetWorkflow {α : Type} (k : Knowledge α) (site task : String) :
    Option (Workflow α) :=
  match alookup k.sites (specTrimWww site) with
  | some sd =>
    match alookup sd.workflows task with
    | some w => some w
    | none => aliasFind k.sites (specTrimWww site) task
  | none => aliasFind k.sites (specTrimWww site) task

/-- The spec's description of getWorkflow with the normalization the
code actually performs (every occurrence of "www." removed); this is
the amended reading of the lookup contract. -/
def specGetWorkflowAmended {α : Type} (k : Knowledge α) (site task : String) :
    Option (Workflow α) :=
  match alookup k.sites (normalizeSite site) with
  | some sd =>
    match alookup sd.workflows task with
    | some w => some w
    | none => aliasFind k.sites (normalizeSite site) task
  | none => aliasFind k.sites (normalizeSite site) task

/-- One entry of LoopDetector.action_history.  The source stores the
string `f"{tool}:{json.dumps(params, sort_keys=True)}:{success}"`; we
keep the triple it encodes (`tool` is the Python value passed in, which
may be `None`; `params` stands for the canonical JSON dump of the
parameter dict).  `endswith(":False")` on the encoded string holds
exactly when `success = false`, since an encoded string ends in
`":True"` or `":False"`. -/
structure Sig where
  tool : Option String
  params : String
  success : Bool
deriving DecidableEq, Repr

def LOOP_THRESHOLD : Nat := 3
def MAX_STEPS : Nat := 15

/-- The string LoopDetector.add_action appends to its history. -/
def sigString (s : Sig) : String :=
  (match s.tool with | some t => t | none => "None") ++ ":" ++ s.params ++ ":"
    ++ (if s.success then "True" else "False")

/-- Truthiness of `recent[0].endswith(":False")`: the first signature of
the slice is a failed one.  (Python would raise on an empty slice; the
caller's length guard prevents that.) -/
def firstFailed : List Sig → Bool
  | [] => false
  | a :: _ => !a.success

/-- LoopDetector.is_looping: with fewer than `threshold` (3) actions,
no loop; if the last 3 signatures are all equal and failed, loop; if
there are at least 5 actions and the last 5 signatures take at most 2
distinct values, all failed, loop; otherwise no loop.
`h.drop (h.length - n)` is the Python slice `h[-n:]` and
`recent.dedup.length` is `len(set(recent))`. -/
def is_looping (h : List Sig) : Bool :=
  if h.length < LOOP_THRESHOLD then false
  else
    let recent := h.drop (h.length - LOOP_THRESHOLD)
    if recent.dedup.length = 1 ∧ firstFailed recent = true then true
    else
      let recent5 := if 5 ≤ h.length then h.drop (h.length - 5) else []
      if recent5 ≠ [] ∧ recent5.dedup.length ≤ 2 ∧ recent5.all (fun a => !a.success) = true
      then true
      else false

/-- Python `sig.rsplit(":", 2)[0]`: cut off the last two
colon-separated components (fewer if the string has fewer colons). -/
def rsplitColonHead2 (s : String) : String :=
  match s.data.reverse.dropWhile (fun c => c ≠ ':') with
  | [] => s
  | _ :: rest =>
    match rest.dropWhile (fun c => c ≠ ':') with
    | [] => String.mk rest.reverse
    | _ :: rest2 => String.mk rest2.reverse

/-- LoopDetector.get_last_failed_action: scan the history from the most
recent signature backwards for one that failed and return it with the
`:params:success` tail split off (Python `rsplit(":", 2)[0]`, which cuts
at the last two colons of the encoded string). -/
def get_last_failed_action (h : List Sig) : Option String :=
  match h.reverse.find? (fun s => !s.success) with
  | some s => some (rsplitColonHead2 (sigString s))
  | none => none

/-- The value model for the dicts flowing through Tool.execute
(clawdbot_v12.py and clawdbot_v13.py have the identical method). -/
inductive PyVal where
  | pbool (b : Bool)
  | pstr (s : String)
  | pint (n : Int)
  | pnone
  | pdict (d : List (String × PyVal))

/-- Tool.execute over the outcome of the wrapped callable
`self._execute(**params)`: an exception (modelled as `Except.error` with
the message `str(e)`) becomes `{"success": False, "error": str(e)}`; a
dict result becomes `{"success": result.get("success", True), **result}`
(represented with the success entry in front, which has the same lookup
semantics and insertion order as the Python dict literal); any other
value becomes `{"success": True, "output": result}`. -/
def tool_execute (out : Except String PyVal) : List (String × PyVal) :=
  match out with
  | .error e => [("success", .pbool false), ("error", .pstr e)]
  | .ok (.pdict d) => ("success", (alookup d "success").getD (.pbool true)) :: d
  | .ok v => [("success", .pbool true), ("output", v)]

/-- Registered tools only ever return dicts whose "success" entry, when
present, is a Python bool (every return in browser_cdp.py and in the
local registries either carries `"success": True/False` or no success
key at all). -/
def successFieldOk (out : Except String PyVal) : Bool :=
  match out with
  | .ok (.pdict d) =>
    match alookup d "success" with
    | none => true
    | some (.pbool _) => true
    | some _ => false
  | _ => true

/-- The parsed decision returned by AgenticLoop.decide_next_action, as
AgenticLoop.run consumes it: `done` / `give_up` model the truthiness of
`action.get("done")` / `action.get("give_up")`; `tool` is
`action.get("tool")` (absent keys read as `None`); `params` stands for
the canonical JSON dump of `action.get("params", {})`.  A valid-JSON
oracle reply matching none of the three documented shapes (for example
`{"foo": 1}`) is the value with `done = false`, `give_up = false`,
`tool = none`. -/
structure OracleResp where
  done : Bool
  summary : String
  give_up : Bool
  reason : Option String
  tool : Option String
  params : String
deriving DecidableEq, Repr

/-- Outcome of the oracle-call-and-JSON-extraction in
decide_next_action.  `parsed r`: `json.loads` produced a dict —
directly, after stripping a code fence, or via the `\x7b.*\x7d` regex
fallback (a regex match starts with `\x7b` and ends with `\x7d`, so
whenever it loads, it loads as an object).  `nonObject`: `json.loads`
succeeded directly on JSON that is not an object — a list, number,
string, true/false or null — which decide_next_action returns as is.
`unparseable`: no JSON object could be extracted at all. -/
inductive RawOutcome where
  | parsed (r : OracleResp)
  | nonObject
  | unparseable
deriving DecidableEq, Repr

/-- What decide_next_action hands back to run: a dict (abstracted to
the fields run reads), or a non-dict JSON value — on which run's very
next expression `action.get("done")` raises AttributeError, and neither
run, nor process, nor the main loop catches it. -/
inductive ParsedReply where
  | obj (r : OracleResp)
  | nonObject
deriving DecidableEq, Repr

/-- The tail of decide_next_action: a parsed dict is returned as is; a
directly-parsed non-object JSON value is also returned as is (run then
crashes on it); only when nothing parses at all does the method return
`{"give_up": True, "reason": "Could not parse response"}`. -/
def parseDecision : RawOutcome → ParsedReply
  | .parsed r => .obj r
  | .nonObject => .nonObject
  | .unparseable => .obj ⟨false, "", true, some "Could not parse response", none, ""⟩

/-- The names registered by AgenticToolRegistry._register_tools. -/
def agenticTools : List String :=
  ["navigate", "click", "click_nth", "type", "press", "wait", "scroll", "scroll_find"]

/-- `self.tools.get(name)` succeeds exactly for registered names. -/
def knownAgenticTool (t : String) : Bool := agenticTools.contains t

/-- The dict AgenticLoop.run returns, plus a count of oracle calls made
(`decide_next_action` invocations), which the claims about retry
behaviour refer to. -/
structure RunResult where
  success : Bool
  message : String
  steps : Nat
  oracleCalls : Nat
deriving DecidableEq, Repr

/-- `[h["action"] for h in history if h["result"].get("success")]`: the
actions of the history entries whose tool result succeeded. -/
def successfulSteps (hist : List (OracleResp × Bool)) : List OracleResp :=
  (hist.filter (fun h => h.2)).map (fun h => h.1)

/-- The LEARN-FROM-FAILURE block at the top of a loop iteration: when
the loop detector fires and a site was inferred (`if self.knowledge and
site:`), record the last failed action as a wrong approach — unless
get_last_failed_action returned `None` or an empty (falsy) string. -/
def loop_learn (now : Time) (site task : String) (ld : List Sig)
    (k : Knowledge OracleResp) : Knowledge OracleResp :=
  if is_looping ld then
    if site ≠ "" then
      match get_last_failed_action ld with
      | some fa =>
        if fa ≠ "" then record_failure now site task fa "Repeated failure in loop" "" k
        else k
      | none => k
    else k
  else k

/-- Success bit of the ACT phase: a reply whose tool name is not
registered — `tools.get(tool_name)` is `None`, including
`tool_name = None` — takes the Unknown-tool path, a failed result with
nothing executed, while a registered tool runs the executor. -/
def actSucc (exec : Nat → String → String → Bool) (kt : String → Bool) (step : Nat)
    (d : OracleResp) : Bool :=
  match d.tool with
  | some t => if kt t then exec step t d.params else false
  | none => false

/-- One-step-at-a-time model of the `for step in range(MAX_STEPS)` body
of AgenticLoop.run, structurally recursive on the remaining step budget
`fuel`.  Parameters abstract the environment: `oracle step` is the raw
outcome of the decision call at iteration `step`; `exec step t p` is the
success bit of executing registered tool `t` with params `p` there (the
browser's behaviour); `kt` is registry lookup; `site`/`task` are the
values of extract_site_from_goal / extract_task_from_goal; `now` stands
for the clock.  The SENSE phase (screenshot, page text) and the settle
sleep only feed the oracle, which is already abstract, so they do not
appear.  `self.knowledge` is present (v12 always passes one), so
`if self.knowledge and site and task` is `site ≠ "" ∧ task ≠ ""`.
When the budget is exhausted the source runs record_workflow_failure
unconditionally and reports failure.  When the decision is a non-object
JSON value, run raises an uncaught AttributeError at
`action.get("done")` and the process dies before any terminal save —
modelled as `none` (the mutated in-memory store is never flushed, so
the crash outcome carries no store). -/
def runLoop (oracle : Nat → RawOutcome) (exec : Nat → String → String → Bool)
    (kt : String → Bool) (site task : String) (now : Time) :
    Nat → Nat → List (OracleResp × Bool) → List Sig → Knowledge OracleResp →
    Option (RunResult × Knowledge OracleResp)
  | 0, _, hist, _, k =>
    some (⟨false, "Max steps (15) reached", hist.length, 0⟩,
      record_workflow_failure site task k)
  | fuel + 1, step, hist, ld, k =>
    let k1 := loop_learn now site task ld k
    match parseDecision (oracle step) with
    | .nonObject => none
    | .obj d =>
      if d.done then
        some (⟨true, d.summary, hist.length, 1⟩,
          if site ≠ "" ∧ task ≠ "" then record_success now site task (successfulSteps hist) k1
          else k1)
      else if d.give_up then
        some (⟨false, d.reason.getD "Cannot complete", hist.length, 1⟩,
          if site ≠ "" ∧ task ≠ "" then record_workflow_failure site task k1 else k1)
      else
        let succ := actSucc exec kt step d
        match runLoop oracle exec kt site task now fuel (step + 1)
            (hist ++ [(d, succ)]) (ld ++ [⟨d.tool, d.params, succ⟩]) k1 with
        | none => none
        | some r => some (⟨r.1.success, r.1.message, r.1.steps, r.1.oracleCalls + 1⟩, r.2)

/-- AgenticLoop.run after a successful browser connect: reset the loop
detector, start with an empty history, and iterate at most MAX_STEPS
times.  `some (result, store)` is a run that returned its result dict;
`none` is a run killed by the uncaught AttributeError on a non-object
oracle reply. -/
def run (oracle : Nat → RawOutcome) (exec : Nat → String → String → Bool)
    (kt : String → Bool) (site task : String) (now : Time)
    (k : Knowledge OracleResp) : Option (RunResult × Knowledge OracleResp) :=
  runLoop oracle exec kt site task now MAX_STEPS 0 [] [] k

/-! General lemmas about the association-list operations. -/

theorem alookup_mem {β : Type} {l : List (String × β)} {k : String} {v : β}
    (h : alookup l k = some v) : (k, v) ∈ l := by
  induction l with
  | nil => simp [alookup] at h
  | cons p rest ih =>
    obtain ⟨k', v'⟩ := p
    simp only [alookup] at h
    split at h
    · next heq =>
      cases h
      subst heq
      exact List.mem_cons_self _ _
    · exact List.mem_cons_of_mem _ (ih h)

theorem mem_aset {β : Type} {l : List (String × β)} {k : String} {v : β} {x : String × β}
    (h : x ∈ aset l k v) : x = (k, v) ∨ x ∈ l := by
  induction l with
  | nil => simp [aset] at h; simp [h]
  | cons p rest ih =>
    obtain ⟨k', v'⟩ := p
    simp only [aset] at h
    split at h
    · next heq =>
      rcases List.mem_cons.mp h with h1 | h1
      · subst heq; exact Or.inl (by simp [h1])
      · exact Or.inr (List.mem_cons_of_mem _ h1)
    · rcases List.mem_cons.mp h with h1 | h1
      · exact Or.inr (by simp [h1])
      · rcases ih h1 with h2 | h2
        · exact Or.inl h2
        · exact Or.inr (List.mem_cons_of_mem _ h2)

theorem alookup_aset_self {β : Type} (l : List (String × β)) (k : String) (v : β) :
    alookup (aset l k v) k = some v := by
  induction l with
  | nil => simp [aset, alookup]
  | cons p rest ih =>
    obtain ⟨k', v'⟩ := p
    simp only [aset]
    split
    · next heq => simp [alookup, heq]
    · next hne => simp [alookup, hne, ih]

theorem alookup_append_of_none {β : Type} {l : List (String × β)} {k : String}
    (h : alookup l k = none) (l' : List (String × β)) :
    alookup (l ++ l') k = alookup l' k := by
  induction l with
  | nil => simp
  | cons p rest ih =>
    obtain ⟨k', v'⟩ := p
    simp only [alookup] at h
    split at h
    · exact absurd h (by simp)
    · next hne =>
      simp only [List.cons_append, alookup, if_neg hne]
      exact ih h

theorem aset_keys {β : Type} {l : List (String × β)} {k : String} {v₀ : β}
    (h : alookup l k = some v₀) (v : β) :
    (aset l k v).map Prod.fst = l.map Prod.fst := by
  induction l with
  | nil => simp [alookup] at h
  | cons p rest ih =>
    obtain ⟨k', v'⟩ := p
    simp only [alookup] at h
    simp only [aset]
    split at h
    · next heq => rw [if_pos heq]; simp
    · next hne => rw [if_neg hne]; simp [ih h]

/-- The task-name keys of the workflows dict stored under the
(normalized) site key: the shape a duplicate entry would change. -/
def wfKeys {α : Type} (k : Knowledge α) (site : String) : List String :=
  match alookup k.sites (normalizeSite site) with
  | some sd => sd.workflows.map Prod.fst
  | none => []

theorem wfAt_eq_some {α : Type} {k : Knowledge α} {site task : String} {w : Workflow α}
    (h : wfAt k site task = some w) :
    ∃ sd, alookup k.sites (normalizeSite site) = some sd
      ∧ alookup sd.workflows task = some w := by
  unfold wfAt at h
  split at h
  · next sd hs => exact ⟨sd, hs, h⟩
  · exact absurd h (by simp)

/-! Arithmetic facts about the confidence constants. -/

theorem q110 : (mkRat 1 10 : ℚ) = 1/10 := by norm_num [Rat.mkRat_eq_div]

theorem q5100 : (mkRat 5 100 : ℚ) = 1/20 := by norm_num [Rat.mkRat_eq_div]

theorem q710 : (mkRat 7 10 : ℚ) = 7/10 := by norm_num [Rat.mkRat_eq_div]

end Clawdbot

namespace Clawdbot

/-! The confidence-clamp invariant (claim C1). -/

/-- Every workflow anywhere in the store has its confidence inside the
clamp interval [0.1, 1.0]. -/
def confOK {α : Type} (k : Knowledge α) : Prop :=
  ∀ site sd, (site, sd) ∈ k.sites → ∀ task w, (task, w) ∈ sd.workflows →
    mkRat 1 10 ≤ w.confidence ∧ w.confidence ≤ 1

/-- The stores built from the empty store by record_success and
record_workflow_failure calls only. -/
inductive Reachable {α : Type} : Knowledge α → Prop
  | empty : Reachable ⟨[], []⟩
  | success (now : Time) (site task : String) (steps : List α) {k : Knowledge α} :
      Reachable k → Reachable (record_success now site task steps k)
  | wfailure (site task : String) {k : Knowledge α} :
      Reachable k → Reachable (record_workflow_failure site task k)

theorem new_workflow_conf_bounds {α : Type} (now : Time) (steps : List α) :
    mkRat 1 10 ≤ (new_workflow now steps : Workflow α).confidence ∧
    (new_workflow now steps : Workflow α).confidence ≤ 1 := by
  unfold new_workflow
  rw [q110, q710]
  constructor <;> norm_num

theorem bump_workflow_conf_bounds {α : Type} (now : Time) {w : Workflow α}
    (h1 : mkRat 1 10 ≤ w.confidence) (h2 : w.confidence ≤ 1) :
    mkRat 1 10 ≤ (bump_workflow now w).confidence ∧ (bump_workflow now w).confidence ≤ 1 := by
  unfold bump_workflow
  dsimp only
  rw [q110] at h1 ⊢
  rw [q5100]
  refine ⟨le_min (by norm_num) (by linarith), min_le_left _ _⟩

theorem drop_workflow_conf_bounds {α : Type} {w : Workflow α}
    (h1 : mkRat 1 10 ≤ w.confidence) (h2 : w.confidence ≤ 1) :
    mkRat 1 10 ≤ (drop_workflow_conf w : Workflow α).confidence ∧
    (drop_workflow_conf w : Workflow α).confidence ≤ 1 := by
  unfold drop_workflow_conf
  dsimp only
  rw [q110] at h1 ⊢
  refine ⟨le_max_left _ _, max_le (by norm_num) (by linarith)⟩

theorem confOK_record_success {α : Type} {k : Knowledge α} (h : confOK k)
    (now : Time) (site task : String) (steps : List α) :
    confOK (record_success now site task steps k) := by
  intro s' sd' hs' t' w' hw'
  unfold record_success at hs'
  cases hsl : alookup k.sites (normalizeSite site) with
  | none =>
    rw [hsl] at hs'
    dsimp only at hs'
    rcases mem_aset hs' with he | hm
    · obtain ⟨he1, he2⟩ := Prod.mk.injEq .. |>.mp he
      subst he2
      rcases List.mem_singleton.mp hw' with hw2
      obtain ⟨ht1, ht2⟩ := Prod.mk.injEq .. |>.mp hw2
      subst ht2
      exact new_workflow_conf_bounds now steps
    · exact h s' sd' hm t' w' hw'
  | some sd =>
    rw [hsl] at hs'
    dsimp only at hs'
    rcases mem_aset hs' with he | hm
    · obtain ⟨he1, he2⟩ := Prod.mk.injEq .. |>.mp he
      subst he2
      dsimp only at hw'
      cases hwl : alookup sd.workflows task with
      | some w0 =>
        rw [hwl] at hw'
        dsimp only at hw'
        rcases mem_aset hw' with he' | hm'
        · obtain ⟨ht1, ht2⟩ := Prod.mk.injEq .. |>.mp he'
          subst ht2
          have hb := h (normalizeSite site) sd (alookup_mem hsl) task w0 (alookup_mem hwl)
          exact bump_workflow_conf_bounds now hb.1 hb.2
        · exact h (normalizeSite site) sd (alookup_mem hsl) t' w' hm'
      | none =>
        rw [hwl] at hw'
        dsimp only at hw'
        rcases List.mem_append.mp hw' with hm' | hm'
        · exact h (normalizeSite site) sd (alookup_mem hsl) t' w' hm'
        · rcases List.mem_singleton.mp hm' with hw2
          obtain ⟨ht1, ht2⟩ := Prod.mk.injEq .. |>.mp hw2
          subst ht2
          exact new_workflow_conf_bounds now steps
    · exact h s' sd' hm t' w' hw'

theorem confOK_record_workflow_failure {α : Type} {k : Knowledge α} (h : confOK k)
    (site task : String) : confOK (record_workflow_failure site task k) := by
  intro s' sd' hs' t' w' hw'
  unfold record_workflow_failure at hs'
  cases hsl : alookup k.sites (normalizeSite site) with
  | none =>
    rw [hsl] at hs'
    exact h s' sd' hs' t' w' hw'
  | some sd =>
    rw [hsl] at hs'
    dsimp only at hs'
    cases hwl : alookup sd.workflows task with
    | none =>
      rw [hwl] at hs'
      exact h s' sd' hs' t' w' hw'
    | some w0 =>
      rw [hwl] at hs'
      dsimp only at hs'
      rcases mem_aset hs' with he | hm
      · obtain ⟨he1, he2⟩ := Prod.mk.injEq .. |>.mp he
        subst he2
        dsimp only at hw'
        rcases mem_aset hw' with he' | hm'
        · obtain ⟨ht1, ht2⟩ := Prod.mk.injEq .. |>.mp he'
          subst ht2
          have hb := h (normalizeSite site) sd (alookup_mem hsl) task w0 (alookup_mem hwl)
          exact drop_workflow_conf_bounds hb.1 hb.2
        · exact h (normalizeSite site) sd (alookup_mem hsl) t' w' hm'
      · exact h s' sd' hm t' w' hw'

theorem reachable_confOK {α : Type} {k : Knowledge α} (hk : Reachable k) : confOK k := by
  induction hk with
  | empty => intro site sd hs; simp at hs
  | success now site task steps hk ih => exact confOK_record_success ih now site task steps
  | wfailure site task hk ih => exact confOK_record_workflow_failure ih site task

/-- Claim C1: starting from the empty store, after any sequence of
record_success / record_workflow_failure calls, every workflow held for
any (site, task) has confidence in the closed interval [0.1, 1.0]. -/
theorem workflow_confidence_in_bounds {α : Type} (k : Knowledge α) (hk : Reachable k)
    (site : String) (sd : SiteData α) (hs : (site, sd) ∈ k.sites)
    (task : String) (w : Workflow α) (hw : (task, w) ∈ sd.workflows) :
    mkRat 1 10 ≤ w.confidence ∧ w.confidence ≤ 1 :=
  reachable_confOK hk site sd hs task w hw

/-- Witness for C1: one record_success from the empty store stores a
workflow at confidence 0.7, which lies inside [0.1, 1.0]. -/
theorem workflow_confidence_in_bounds_witness :
    mkRat 1 10 ≤ (new_workflow 0 [true] : Workflow Bool).confidence ∧
    (new_workflow 0 [true] : Workflow Bool).confidence ≤ 1 :=
  workflow_confidence_in_bounds (α := Bool)
    (record_success 0 "a.com" "t" [true] ⟨[], []⟩)
    (Reachable.success 0 "a.com" "t" [true] Reachable.empty)
    "a.com" ⟨[("t", new_workflow 0 [true])], []⟩ (by decide)
    "t" (new_workflow 0 [true]) (by decide)

end Clawdbot

namespace Clawdbot

/-! Claim C2: a second record_success for an existing (site, task). -/

/-- Claim C2: calling record_success for a (site, task) that already has
a workflow does not duplicate the entry (the task-key list of the site's
workflows dict is unchanged), does not replace the stored steps, and
only applies the bump: confidence becomes min(1.0, old + 0.05) — hence
does not decrease while the old value is within the clamp — the success
counter is incremented and the last_success stamp updated. -/
theorem record_success_existing_updates {α : Type} (k : Knowledge α) (site task : String)
    (steps : List α) (now : Time) (w : Workflow α) (hw : wfAt k site task = some w) :
    wfAt (record_success now site task steps k) site task = some (bump_workflow now w) ∧
    (bump_workflow now w).steps = w.steps ∧
    (bump_workflow now w).success_count = w.success_count + 1 ∧
    wfKeys (record_success now site task steps k) site = wfKeys k site ∧
    (w.confidence ≤ 1 → w.confidence ≤ (bump_workflow now w).confidence) := by
  obtain ⟨sd, hs, ht⟩ := wfAt_eq_some hw
  have hrs : record_success now site task steps k
      = ⟨aset k.sites (normalizeSite site)
          ⟨aset sd.workflows task (bump_workflow now w), sd.alt_domains⟩,
         k.learned_failures⟩ := by
    unfold record_success
    simp only [hs, ht]
  refine ⟨?_, rfl, rfl, ?_, ?_⟩
  · rw [hrs]
    unfold wfAt
    simp only [alookup_aset_self]
  · rw [hrs]
    unfold wfKeys
    simp only [alookup_aset_self, hs]
    exact aset_keys ht _
  · intro h1
    refine le_min h1 ?_
    have h2 : (0:ℚ) ≤ mkRat 5 100 := by norm_num [Rat.mkRat_eq_div]
    linarith

/-- A one-workflow store used to witness C2. -/
def c2store : Knowledge Bool :=
  ⟨[("a.com", ⟨[("t", ⟨mkRat 7 10, "success", 1, 0, 0, [true]⟩)], []⟩)], []⟩

/-- The workflow c2store holds for ("a.com", "t"). -/
def c2wf : Workflow Bool := ⟨mkRat 7 10, "success", 1, 0, 0, [true]⟩

/-- Witness for C2 at a concrete store. -/
theorem record_success_existing_updates_witness :
    wfAt (record_success 5 "a.com" "t" [false] c2store) "a.com" "t"
      = some (bump_workflow 5 c2wf) ∧
    (bump_workflow 5 c2wf).steps = c2wf.steps ∧
    (bump_workflow 5 c2wf).success_count = c2wf.success_count + 1 ∧
    wfKeys (record_success 5 "a.com" "t" [false] c2store) "a.com" = wfKeys c2store "a.com" ∧
    (c2wf.confidence ≤ 1 → c2wf.confidence ≤ (bump_workflow 5 c2wf).confidence) :=
  record_success_existing_updates c2store "a.com" "t" [false] 5 c2wf (by decide)

end Clawdbot

namespace Clawdbot

/-! Claim C3: zero-step workflows and record_success. -/

/-- An oracle that immediately replies with the done shape. -/
def doneOracle : Nat → RawOutcome := fun _ => .parsed ⟨true, "done", false, none, none, ""⟩

/-- A tool executor whose every invocation fails (its value is
irrelevant to the claims that use it). -/
def failExec : Nat → String → String → Bool := fun _ _ _ => false

/-- Counterexample for C3: run the AgenticLoop from the empty store with
an oracle that declares done on the very first step.  The history is
still empty, so the terminal record_success call receives an empty steps
list — and the store afterwards holds a workflow for
("instagram.com", "send_dm") whose steps list is empty.  A zero-step
workflow IS persisted, contradicting the claim. -/
theorem zero_step_workflow_persisted :
    (run doneOracle failExec knownAgenticTool "instagram.com" "send_dm" 0
        ⟨[], []⟩).map (fun r => wfAt r.2 "instagram.com" "send_dm")
      = some (some ⟨mkRat 7 10, "success", 1, 0, 0, ([] : List OracleResp)⟩) := by
  decide

/-- Claim C3 as amended: record_success stores exactly the steps list it
was given, so the workflow created for a previously unknown (site, task)
has non-empty steps precisely when the caller passed a non-empty list;
the AgenticLoop's terminal call can pass an empty list (see the
counterexample), in which case a zero-step workflow is persisted. -/
theorem record_success_new_nonempty {α : Type} (k : Knowledge α) (site task : String)
    (steps : List α) (now : Time) (h0 : wfAt k site task = none) (hne : steps ≠ []) :
    wfAt (record_success now site task steps k) site task = some (new_workflow now steps) ∧
    ∀ w, wfAt (record_success now site task steps k) site task = some w → w.steps ≠ [] := by
  have hmain : wfAt (record_success now site task steps k) site task
      = some (new_workflow now steps) := by
    unfold wfAt at h0
    unfold record_success
    split at h0
    · next sd hs =>
      unfold wfAt
      simp only [hs, h0, alookup_aset_self]
      rw [alookup_append_of_none h0]
      simp [alookup]
    · next hs =>
      unfold wfAt
      simp only [hs, alookup_aset_self]
      simp [alookup]
  refine ⟨hmain, ?_⟩
  intro w hw
  rw [hmain] at hw
  cases hw
  simpa [new_workflow] using hne

/-- Witness for the amended C3 at a concrete input. -/
theorem record_success_new_nonempty_witness :
    wfAt (record_success 0 "a.com" "t" [true] (⟨[], []⟩ : Knowledge Bool)) "a.com" "t"
      = some (new_workflow 0 [true]) ∧
    ∀ w, wfAt (record_success 0 "a.com" "t" [true] (⟨[], []⟩ : Knowledge Bool)) "a.com" "t"
      = some w → w.steps ≠ [] :=
  record_success_new_nonempty ⟨[], []⟩ "a.com" "t" [true] 0 (by decide) (by decide)

end Clawdbot

namespace Clawdbot

/-! Claims C5 and C6: the LoopDetector. -/

theorem dedup_three (s : Sig) : ([s, s, s] : List Sig).dedup = [s] := by
  rw [List.dedup_cons_of_mem (by simp), List.dedup_cons_of_mem (by simp)]
  simp

theorem dedup_aba (a b : Sig) (hab : a ≠ b) : ([a, b, a] : List Sig).dedup = [b, a] := by
  rw [List.dedup_cons_of_mem (by simp),
    List.dedup_cons_of_not_mem (by simp only [List.mem_singleton]; exact fun e => hab e.symm)]
  simp

theorem dedup_osc (a b : Sig) (hab : a ≠ b) :
    ([a, b, a, b, a] : List Sig).dedup = [b, a] := by
  rw [List.dedup_cons_of_mem (by simp), List.dedup_cons_of_mem (by simp),
    List.dedup_cons_of_mem (by simp),
    List.dedup_cons_of_not_mem (by simp only [List.mem_singleton]; exact fun e => hab e.symm)]
  simp

/-- Claim C5: appending the exact same failing signature three times in
a row to any history makes is_looping true, while a history of just two
such identical failing signatures leaves it false. -/
theorem three_identical_failures_loop (h : List Sig) (s : Sig) (hs : s.success = false) :
    is_looping (h ++ [s, s, s]) = true ∧ is_looping [s, s] = false := by
  constructor
  · rw [is_looping]
    have hlen : ¬ (h ++ [s, s, s]).length < LOOP_THRESHOLD := by
      simp [LOOP_THRESHOLD]
    rw [if_neg hlen]
    have hdrop : (h ++ [s, s, s]).drop ((h ++ [s, s, s]).length - LOOP_THRESHOLD)
        = [s, s, s] := by
      have hl : (h ++ [s, s, s]).length - LOOP_THRESHOLD = h.length := by
        simp [LOOP_THRESHOLD]
      rw [hl, List.drop_left]
    simp only [hdrop, dedup_three, firstFailed, hs]
    simp
  · rfl

/-- A failing click signature, used to witness C5. -/
def c5sig : Sig := ⟨some "click", "x", false⟩

/-- Witness for C5 at a concrete signature. -/
theorem three_identical_failures_loop_witness :
    is_looping ([] ++ [c5sig, c5sig, c5sig]) = true ∧ is_looping [c5sig, c5sig] = false :=
  three_identical_failures_loop [] c5sig rfl

/-- Claim C6: a history whose last five signatures alternate between two
distinct failing signatures trips is_looping via the loose
two-distinct-values check, although no three consecutive entries are
identical. -/
theorem alternating_two_failures_loop (h : List Sig) (a b : Sig) (hab : a ≠ b)
    (ha : a.success = false) (hb : b.success = false) :
    is_looping (h ++ [a, b, a, b, a]) = true := by
  rw [is_looping]
  have hlen : ¬ (h ++ [a, b, a, b, a]).length < LOOP_THRESHOLD := by
    simp [LOOP_THRESHOLD]
  rw [if_neg hlen]
  have h3 : (h ++ [a, b, a, b, a]).drop ((h ++ [a, b, a, b, a]).length - LOOP_THRESHOLD)
      = [a, b, a] := by
    have e : h ++ [a, b, a, b, a] = (h ++ [a, b]) ++ [a, b, a] := by simp
    have hl : (h ++ [a, b, a, b, a]).length - LOOP_THRESHOLD = (h ++ [a, b]).length := by
      simp [LOOP_THRESHOLD]
    rw [hl, e, List.drop_left]
  have h5len : 5 ≤ (h ++ [a, b, a, b, a]).length := by simp
  have h5 : (h ++ [a, b, a, b, a]).drop ((h ++ [a, b, a, b, a]).length - 5)
      = [a, b, a, b, a] := by
    have hl : (h ++ [a, b, a, b, a]).length - 5 = h.length := by simp
    rw [hl, List.drop_left]
  simp only [h3, dedup_aba a b hab, if_pos h5len, h5, dedup_osc a b hab]
  simp [ha, hb]

/-- A failing press signature distinct from c5sig, used to witness C6. -/
def c6sig : Sig := ⟨some "press", "y", false⟩

/-- Witness for C6 at two concrete distinct failing signatures. -/
theorem alternating_two_failures_loop_witness :
    is_looping ([] ++ [c5sig, c6sig, c5sig, c6sig, c5sig]) = true :=
  alternating_two_failures_loop [] c5sig c6sig (by decide) rfl rfl

end Clawdbot

namespace Clawdbot

/-! Claim C7: record_failure deduplication. -/

theorem record_failure_learned {α : Type} (now : Time) (site task wrong why corr : String)
    (k : Knowledge α) :
    (record_failure now site task wrong why corr k).learned_failures
      = (updateFailures now (normalizeSite site) task wrong k.learned_failures).getD
          (k.learned_failures
            ++ [⟨normalizeSite site, task, wrong, why, corr, now, mkRat 8 10, none⟩]) := by
  unfold record_failure
  cases hU : updateFailures now (normalizeSite site) task wrong k.learned_failures <;> rfl

theorem updateFailures_eq_none {l : List FailureRecord} {s t w : String} {now : Time}
    (h : ∀ f ∈ l, matchesTriple s t w f = false) :
    updateFailures now s t w l = none := by
  induction l with
  | nil => rfl
  | cons f fs ih =>
    simp only [updateFailures]
    rw [if_neg (by simp [h f (List.mem_cons_self f fs)])]
    rw [ih (fun g hg => h g (List.mem_cons_of_mem _ hg))]
    rfl

theorem updateFailures_append {l l' : List FailureRecord} {s t w : String} {now : Time}
    (h : ∀ f ∈ l, matchesTriple s t w f = false) :
    updateFailures now s t w (l ++ l') = (updateFailures now s t w l').map (l ++ ·) := by
  induction l with
  | nil => simp
  | cons f fs ih =>
    simp only [List.cons_append, updateFailures]
    rw [if_neg (by simp [h f (List.mem_cons_self f fs)])]
    rw [List.append_eq, ih (fun g hg => h g (List.mem_cons_of_mem _ hg))]
    cases updateFailures now s t w l' <;> rfl

/-- Claim C7: starting from a store with no record for the (normalized
site, task, wrong_approach) triple, two record_failure calls with the
identical triple leave exactly one matching FailureRecord; the first
call appends it at confidence 0.8 with no last_seen, the second call
does not append a duplicate but stamps last_seen with the second time
and raises the confidence to min(1.0, 0.8 + 0.1) = 0.9 ≥ 0.8. -/
theorem record_failure_dedup {α : Type} (k : Knowledge α)
    (site task wrong why1 corr1 why2 corr2 : String) (t1 t2 : Time)
    (h0 : k.learned_failures.filter (matchesTriple (normalizeSite site) task wrong) = []) :
    (record_failure t1 site task wrong why1 corr1 k).learned_failures.filter
        (matchesTriple (normalizeSite site) task wrong)
      = [⟨normalizeSite site, task, wrong, why1, corr1, t1, mkRat 8 10, none⟩] ∧
    (record_failure t2 site task wrong why2 corr2
        (record_failure t1 site task wrong why1 corr1 k)).learned_failures.filter
        (matchesTriple (normalizeSite site) task wrong)
      = [⟨normalizeSite site, task, wrong, why1, corr1, t1,
          min 1 (mkRat 8 10 + mkRat 1 10), some t2⟩] ∧
    min 1 (mkRat 8 10 + mkRat 1 10) = mkRat 9 10 ∧
    mkRat 8 10 ≤ mkRat 9 10 := by
  have hall : ∀ f ∈ k.learned_failures,
      matchesTriple (normalizeSite site) task wrong f = false := by
    intro f hf
    have := List.filter_eq_nil_iff.mp h0 f hf
    simpa using this
  have hk1 : (record_failure t1 site task wrong why1 corr1 k).learned_failures
      = k.learned_failures
        ++ [⟨normalizeSite site, task, wrong, why1, corr1, t1, mkRat 8 10, none⟩] := by
    rw [record_failure_learned, updateFailures_eq_none hall]
    simp
  have hmatch : matchesTriple (normalizeSite site) task wrong
      ⟨normalizeSite site, task, wrong, why1, corr1, t1, mkRat 8 10, none⟩ = true := by
    simp [matchesTriple]
  have hk2 : (record_failure t2 site task wrong why2 corr2
        (record_failure t1 site task wrong why1 corr1 k)).learned_failures
      = k.learned_failures
        ++ [⟨normalizeSite site, task, wrong, why1, corr1, t1,
             min 1 (mkRat 8 10 + mkRat 1 10), some t2⟩] := by
    rw [record_failure_learned, hk1, updateFailures_append hall]
    simp [updateFailures, hmatch]
  refine ⟨?_, ?_, ?_, ?_⟩
  · rw [hk1, List.filter_append, h0]
    simp [hmatch]
  · rw [hk2, List.filter_append, h0]
    simp only [List.nil_append]
    rw [List.filter_cons]
    simp [matchesTriple]
  · norm_num [Rat.mkRat_eq_div]
  · norm_num [Rat.mkRat_eq_div]

/-- Witness for C7 at concrete strings and times, from the empty store. -/
theorem record_failure_dedup_witness :
    (record_failure 1 "a.com" "t" "w" "y1" "c1" (⟨[], []⟩ : Knowledge Bool)).learned_failures.filter
        (matchesTriple (normalizeSite "a.com") "t" "w")
      = [⟨normalizeSite "a.com", "t", "w", "y1", "c1", 1, mkRat 8 10, none⟩] ∧
    (record_failure 2 "a.com" "t" "w" "y2" "c2"
        (record_failure 1 "a.com" "t" "w" "y1" "c1" (⟨[], []⟩ : Knowledge Bool))).learned_failures.filter
        (matchesTriple (normalizeSite "a.com") "t" "w")
      = [⟨normalizeSite "a.com", "t", "w", "y1", "c1", 1,
          min 1 (mkRat 8 10 + mkRat 1 10), some 2⟩] ∧
    min 1 (mkRat 8 10 + mkRat 1 10) = mkRat 9 10 ∧
    mkRat 8 10 ≤ mkRat 9 10 :=
  record_failure_dedup ⟨[], []⟩ "a.com" "t" "w" "y1" "c1" "y2" "c2" 1 2 (by decide)

end Clawdbot

namespace Clawdbot

/-! Claims C4 and C8: the AgenticLoop state machine. -/

theorem record_failure_sites {α : Type} (now : Time) (site task wrong why corr : String)
    (k : Knowledge α) :
    (record_failure now site task wrong why corr k).sites = k.sites := by
  unfold record_failure
  cases hU : updateFailures now (normalizeSite site) task wrong k.learned_failures <;> rfl

theorem loop_learn_sites (now : Time) (site task : String) (ld : List Sig)
    (k : Knowledge OracleResp) : (loop_learn now site task ld k).sites = k.sites := by
  unfold loop_learn
  by_cases h1 : is_looping ld = true
  · rw [if_pos h1]
    by_cases h2 : site ≠ ""
    · rw [if_pos h2]
      cases get_last_failed_action ld with
      | none => rfl
      | some fa =>
        dsimp only
        by_cases h3 : fa ≠ ""
        · rw [if_pos h3]
          exact record_failure_sites now site task fa "Repeated failure in loop" "" k
        · rw [if_neg h3]
    · rw [if_neg h2]
  · rw [if_neg h1]

theorem record_workflow_failure_sites_congr {α : Type} {k k' : Knowledge α}
    (h : k.sites = k'.sites) (site task : String) :
    (record_workflow_failure site task k).sites
      = (record_workflow_failure site task k').sites := by
  unfold record_workflow_failure
  rw [h]
  cases hsl : alookup k'.sites (normalizeSite site) with
  | none => exact h
  | some sd =>
    dsimp only
    cases htl : alookup sd.workflows task with
    | none => exact h
    | some w => rfl

theorem wfAt_congr_sites {α : Type} {k k' : Knowledge α} (h : k.sites = k'.sites)
    (site task : String) : wfAt k site task = wfAt k' site task := by
  unfold wfAt
  rw [h]

theorem wfAt_record_workflow_failure {α : Type} {k : Knowledge α} {site task : String}
    {w : Workflow α} (hw : wfAt k site task = some w) :
    wfAt (record_workflow_failure site task k) site task = some (drop_workflow_conf w) := by
  obtain ⟨sd, hs, ht⟩ := wfAt_eq_some hw
  unfold record_workflow_failure
  simp only [hs, ht]
  unfold wfAt
  simp only [alookup_aset_self]

/-- When every oracle reply parses to a concrete action (done and
give_up both falsy), each loop iteration takes the ACT branch and
recurses, so the run ends at the fuel-0 exit: failure, the max-steps
message, one oracle call per remaining budget step, one history entry
per step, and a final record_workflow_failure against a store whose
sites the in-loop record_failure calls never touched. -/
theorem runLoop_always_act (oracle : Nat → RawOutcome) (exec : Nat → String → String → Bool)
    (kt : String → Bool) (site task : String) (now : Time)
    (ho : ∀ n, ∃ r, parseDecision (oracle n) = ParsedReply.obj r
      ∧ r.done = false ∧ r.give_up = false) :
    ∀ fuel step hist ld k, ∃ res k2,
      runLoop oracle exec kt site task now fuel step hist ld k = some (res, k2) ∧
      res.success = false ∧
      res.message = "Max steps (15) reached" ∧
      res.oracleCalls = fuel ∧
      res.steps = hist.length + fuel ∧
      k2.sites = (record_workflow_failure site task k).sites := by
  intro fuel
  induction fuel with
  | zero =>
    intro step hist ld k
    exact ⟨⟨false, "Max steps (15) reached", hist.length, 0⟩,
      record_workflow_failure site task k, rfl, rfl, rfl, rfl, rfl, rfl⟩
  | succ fuel ih =>
    intro step hist ld k
    obtain ⟨r0, hr0, hd1, hd2⟩ := ho step
    obtain ⟨res, k2, hrun, h1, h2, h3, h4, h5⟩ := ih (step + 1)
      (hist ++ [(r0, actSucc exec kt step r0)])
      (ld ++ [⟨r0.tool, r0.params, actSucc exec kt step r0⟩])
      (loop_learn now site task ld k)
    refine ⟨⟨res.success, res.message, res.steps, res.oracleCalls + 1⟩, k2, ?_, h1, h2, ?_, ?_, ?_⟩
    · rw [runLoop, hr0]
      simp only [hd1, hd2, Bool.false_eq_true, if_false]
      rw [hrun]
    · show res.oracleCalls + 1 = fuel + 1
      rw [h3]
    · show res.steps = hist.length + (fuel + 1)
      rw [h4]
      simp [List.length_append]
      omega
    · rw [h5]
      exact record_workflow_failure_sites_congr (loop_learn_sites now site task ld k) site task

/-- An oracle whose every reply is valid JSON but matches none of the
three documented response shapes: done and give_up are falsy and no
tool key is present (for example the object with the single key "foo"). -/
def badShapeOracle : Nat → RawOutcome := fun _ => .parsed ⟨false, "", false, none, none, ""⟩

/-- An oracle whose every reply is valid JSON but not an object (for
example the list [1, 2] or the number 42): json.loads returns it as is,
and run crashes on it. -/
def nonObjectOracle : Nat → RawOutcome := fun _ => .nonObject

/-- Counterexample for C4, refuting the claim on both of its promises.
With an oracle that always returns a valid-JSON OBJECT matching none of
the three shapes, the run is not converted to a single give-up:
AgenticLoop.run treats each such reply as an unknown tool
(`tool_name = None`), keeps iterating, calls the oracle 15 times, and
ends in the budget-exhausted outcome with the max-steps message instead
of a give-up reason.  And with an oracle that returns valid JSON that
is not an object at all, run DOES crash — the uncaught AttributeError
at `action.get("done")`, modelled as `none` — rather than give up. -/
theorem shapeless_response_not_single_giveup :
    (run badShapeOracle failExec knownAgenticTool "instagram.com" "send_dm" 0
        ⟨[], []⟩).map Prod.fst
      = some ⟨false, "Max steps (15) reached", 15, 15⟩ ∧
    run nonObjectOracle failExec knownAgenticTool "instagram.com" "send_dm" 0 ⟨[], []⟩
      = none := by
  exact ⟨by decide, by decide⟩

/-- Claim C4 as amended: an oracle reply from which no JSON object can
be extracted at all is converted deterministically into a single
give-up: decide_next_action returns the parse-error give-up object, run
terminates at once with that reason after exactly one oracle call, does
not crash, and (site and task being inferred, i.e. non-empty) records a
workflow failure.  A valid-JSON OBJECT matching none of the three
shapes instead takes the unknown-tool path and the loop continues (see
the counterexample), and a valid-JSON NON-object reply — a list,
number, string, boolean or null — is returned as is by
decide_next_action and crashes run with an uncaught AttributeError at
`action.get("done")`, modelled here as the run producing `none`. -/
theorem unparseable_response_single_giveup (oracle : Nat → RawOutcome)
    (exec : Nat → String → String → Bool) (kt : String → Bool) (site task : String)
    (now : Time) (k : Knowledge OracleResp) (hs : site ≠ "") (ht : task ≠ "") :
    (oracle 0 = RawOutcome.unparseable →
      run oracle exec kt site task now k
        = some (⟨false, "Could not parse response", 0, 1⟩,
            record_workflow_failure site task k)) ∧
    (oracle 0 = RawOutcome.nonObject →
      run oracle exec kt site task now k = none) := by
  constructor
  · intro h0
    have hd : parseDecision (oracle 0)
        = ParsedReply.obj ⟨false, "", true, some "Could not parse response", none, ""⟩ := by
      rw [h0]
      rfl
    have hloop : loop_learn now site task [] k = k := by
      unfold loop_learn is_looping
      simp [LOOP_THRESHOLD]
    unfold run MAX_STEPS
    rw [show (15:Nat) = 14 + 1 from rfl, runLoop]
    simp only [hloop, hd]
    simp [hs, ht]
  · intro h0
    have hd : parseDecision (oracle 0) = ParsedReply.nonObject := by
      rw [h0]
      rfl
    unfold run MAX_STEPS
    rw [show (15:Nat) = 14 + 1 from rfl, runLoop]
    simp only [hd]

/-- An oracle that never produces a JSON object. -/
def unparseableOracle : Nat → RawOutcome := fun _ => .unparseable

/-- Witness for the amended C4 at a concrete run. -/
theorem unparseable_response_single_giveup_witness :
    (unparseableOracle 0 = RawOutcome.unparseable →
      run unparseableOracle failExec knownAgenticTool "instagram.com" "send_dm" 0 ⟨[], []⟩
        = some (⟨false, "Could not parse response", 0, 1⟩,
            record_workflow_failure "instagram.com" "send_dm" ⟨[], []⟩)) ∧
    (unparseableOracle 0 = RawOutcome.nonObject →
      run unparseableOracle failExec knownAgenticTool "instagram.com" "send_dm" 0 ⟨[], []⟩
        = none) :=
  unparseable_response_single_giveup unparseableOracle failExec knownAgenticTool
    "instagram.com" "send_dm" 0 ⟨[], []⟩ (by decide) (by decide)

end Clawdbot

namespace Clawdbot

/-- An oracle that always asks for a concrete action (the registered
"wait" tool), never done and never give_up. -/
def alwaysActOracle : Nat → RawOutcome :=
  fun _ => .parsed ⟨false, "", false, none, some "wait", ""⟩

/-- A tool executor whose every invocation succeeds. -/
def okExec : Nat → String → String → Bool := fun _ _ _ => true

/-- A store whose workflow for ("instagram.com", "send_dm") already sits
at the clamp floor 0.1 — reachable, e.g. by six record_workflow_failure
calls after the workflow was first learned at 0.7. -/
def floorStore : Knowledge OracleResp :=
  ⟨[("instagram.com",
      ⟨[("send_dm", ⟨mkRat 1 10, "success", 1, 6, 0, []⟩)], []⟩)], []⟩

/-- Counterexample for C8: the run does exhaust the budget after 15
iterations and 15 oracle calls and reports failure, but for a
pre-existing workflow at the clamp floor 0.1 the stored confidence
after the run equals the value before it — max(0.1, 0.1 - 0.1) = 0.1 —
so it is NOT strictly lower, refuting the claim's final conjunct. -/
theorem budget_exhaustion_no_strict_decrease :
    (run alwaysActOracle okExec knownAgenticTool "instagram.com" "send_dm" 0
        floorStore).map Prod.fst
      = some ⟨false, "Max steps (15) reached", 15, 15⟩ ∧
    (run alwaysActOracle okExec knownAgenticTool "instagram.com" "send_dm" 0
        floorStore).map (fun r => (wfAt r.2 "instagram.com" "send_dm").map Workflow.confidence)
      = some ((wfAt floorStore "instagram.com" "send_dm").map Workflow.confidence) := by
  have ho : ∀ n, ∃ r, parseDecision (alwaysActOracle n) = ParsedReply.obj r
      ∧ r.done = false ∧ r.give_up = false :=
    fun n => ⟨⟨false, "", false, none, some "wait", ""⟩, rfl, rfl, rfl⟩
  have hw : wfAt floorStore "instagram.com" "send_dm"
      = some ⟨mkRat 1 10, "success", 1, 6, 0, []⟩ := by decide
  obtain ⟨res, k2, hrun, h1, h2, h3, h4, h5⟩ := runLoop_always_act alwaysActOracle okExec
    knownAgenticTool "instagram.com" "send_dm" 0 ho 15 0 [] [] floorStore
  constructor
  · decide
  · unfold run MAX_STEPS
    rw [hrun]
    simp only [Option.map_some', Option.some.injEq]
    rw [wfAt_congr_sites h5, wfAt_record_workflow_failure hw, hw]
    unfold drop_workflow_conf
    simp only [Option.map_some']
    have : max (mkRat 1 10) (mkRat 1 10 - mkRat 1 10) = mkRat 1 10 := by
      norm_num [Rat.mkRat_eq_div]
    rw [this]

/-- Claim C8 as amended: with an oracle that on every call returns a
concrete action (never done, never give_up), the run terminates after
exactly 15 iterations (15 oracle calls, 15 history entries) in the
budget-exhausted failure outcome, and a pre-existing workflow for the
inferred (site, task) ends at confidence max(0.1, old - 0.1) with its
fail counter incremented — strictly lower than before exactly when the
prior confidence was above the 0.1 floor (at the floor it is
unchanged; see the counterexample). -/
theorem budget_exhaustion_amended (oracle : Nat → RawOutcome)
    (exec : Nat → String → String → Bool) (kt : String → Bool) (site task : String)
    (now : Time) (k : Knowledge OracleResp) (w : Workflow OracleResp)
    (ho : ∀ n, ∃ r, parseDecision (oracle n) = ParsedReply.obj r
      ∧ r.done = false ∧ r.give_up = false)
    (hw : wfAt k site task = some w) :
    ∃ res k2, run oracle exec kt site task now k = some (res, k2) ∧
      res.success = false ∧
      res.message = "Max steps (15) reached" ∧
      res.oracleCalls = 15 ∧
      res.steps = 15 ∧
      wfAt k2 site task = some (drop_workflow_conf w) ∧
      (drop_workflow_conf w).confidence = max (mkRat 1 10) (w.confidence - mkRat 1 10) ∧
      (mkRat 1 10 < w.confidence → (drop_workflow_conf w).confidence < w.confidence) := by
  obtain ⟨res, k2, hrun, h1, h2, h3, h4, h5⟩ :=
    runLoop_always_act oracle exec kt site task now ho 15 0 [] [] k
  refine ⟨res, k2, ?_, h1, h2, h3, ?_, ?_, rfl, ?_⟩
  · unfold run MAX_STEPS
    exact hrun
  · exact h4
  · rw [wfAt_congr_sites h5 site task]
    exact wfAt_record_workflow_failure hw
  · intro hc
    unfold drop_workflow_conf
    dsimp only
    rw [q110] at hc ⊢
    apply max_lt hc
    linarith

/-- A store holding a workflow for ("instagram.com", "send_dm") at
confidence 0.7, used to witness C8. -/
def c8store : Knowledge OracleResp :=
  ⟨[("instagram.com",
      ⟨[("send_dm", ⟨mkRat 7 10, "success", 1, 0, 0, []⟩)], []⟩)], []⟩

/-- The workflow c8store holds for ("instagram.com", "send_dm"). -/
def c8wf : Workflow OracleResp := ⟨mkRat 7 10, "success", 1, 0, 0, []⟩

/-- Witness for the amended C8 at a concrete run over c8store. -/
theorem budget_exhaustion_amended_witness :
    ∃ res k2, run alwaysActOracle okExec knownAgenticTool "instagram.com" "send_dm" 0 c8store
        = some (res, k2) ∧
      res.success = false ∧
      res.message = "Max steps (15) reached" ∧
      res.oracleCalls = 15 ∧
      res.steps = 15 ∧
      wfAt k2 "instagram.com" "send_dm" = some (drop_workflow_conf c8wf) ∧
      (drop_workflow_conf c8wf).confidence = max (mkRat 1 10) (c8wf.confidence - mkRat 1 10) ∧
      (mkRat 1 10 < c8wf.confidence → (drop_workflow_conf c8wf).confidence < c8wf.confidence) :=
  budget_exhaustion_amended alwaysActOracle okExec knownAgenticTool "instagram.com" "send_dm"
    0 c8store c8wf (fun n => ⟨⟨false, "", false, none, some "wait", ""⟩, rfl, rfl, rfl⟩)
    (by decide)

end Clawdbot

namespace Clawdbot

/-! Claim C9: get_site_workflow's normalization and lookup order. -/

/-- A store keyed by "xcom", used to refute the leading-prefix reading
of the normalization. -/
def c9store : Knowledge Bool :=
  ⟨[("xcom", ⟨[("t", ⟨mkRat 7 10, "success", 1, 0, 0, []⟩)], []⟩)], []⟩

/-- Counterexample for C9: the claim says the site is normalized by
trimming only a LEADING "www." prefix, leaving the rest unchanged.  But
the code runs `site.replace("www.", "")`, which removes every
occurrence: "xwww.com" (which has no leading "www.") normalizes to
"xcom", so get_site_workflow finds the workflow stored under "xcom",
while the lookup described by the claim (specGetWorkflow, built from
the spec's words with the leading-trim normalization) finds nothing. -/
theorem get_site_workflow_normalization_cex :
    get_site_workflow c9store "xwww.com" "t"
      = some ⟨mkRat 7 10, "success", 1, 0, 0, []⟩ ∧
    specGetWorkflow c9store "xwww.com" "t" = none ∧
    specTrimWww "xwww.com" = "xwww.com" ∧
    normalizeSite "xwww.com" = "xcom" := by
  refine ⟨by decide, by decide, by decide, by decide⟩

/-- Claim C9 as amended: get_site_workflow behaves exactly as the
spec-shaped lookup specGetWorkflowAmended — normalize the site by
removing EVERY occurrence of the substring "www.", return the workflow
of an exact site match when that site has the task, otherwise scan the
sites in order for one that declares the normalized site among its
alias domains and has the task, otherwise nothing. -/
theorem get_site_workflow_amended {α : Type} (k : Knowledge α) (site task : String) :
    get_site_workflow k site task = specGetWorkflowAmended k site task := by
  unfold get_site_workflow specGetWorkflowAmended wfAt
  cases hs : alookup k.sites (normalizeSite site)
  · rfl
  · next sd =>
    cases ht : alookup sd.workflows task <;> rfl

/-! Claim C10: Tool.execute is total at the tool-call interface. -/

/-- Claim C10: for every outcome of the wrapped callable — a raised
exception or any returned value — Tool.execute returns a dict whose
"success" entry exists and is a Python bool (given that registered
tools only ever put bools under "success", which successFieldOk
states), and an exception is converted to exactly
`{"success": False, "error": str(e)}` rather than propagated. -/
theorem tool_execute_total (out : Except String PyVal) (hb : successFieldOk out = true) :
    (∃ b, alookup (tool_execute out) "success" = some (PyVal.pbool b)) ∧
    (∀ e, out = Except.error e →
      tool_execute out = [("success", PyVal.pbool false), ("error", PyVal.pstr e)]) := by
  constructor
  · match out with
    | .error e => exact ⟨false, rfl⟩
    | .ok (.pbool b) => exact ⟨true, rfl⟩
    | .ok (.pstr s) => exact ⟨true, rfl⟩
    | .ok (.pint n) => exact ⟨true, rfl⟩
    | .ok .pnone => exact ⟨true, rfl⟩
    | .ok (.pdict d) =>
      simp only [successFieldOk] at hb
      match hd : alookup d "success" with
      | none =>
        refine ⟨true, ?_⟩
        simp [tool_execute, alookup, hd]
      | some (.pbool b) =>
        refine ⟨b, ?_⟩
        simp [tool_execute, alookup, hd]
      | some (.pstr s) => rw [hd] at hb; simp at hb
      | some (.pint n) => rw [hd] at hb; simp at hb
      | some .pnone => rw [hd] at hb; simp at hb
      | some (.pdict d') => rw [hd] at hb; simp at hb
  · intro e he
    subst he
    rfl

/-- A result shaped like BrowserCDP.click's success return, used to
witness C10. -/
def c10out : Except String PyVal :=
  .ok (.pdict [("success", .pbool true), ("clicked", .pstr "Send")])

/-- Witness for C10 at a concrete tool result. -/
theorem tool_execute_total_witness :
    (∃ b, alookup (tool_execute c10out) "success" = some (PyVal.pbool b)) ∧
    (∀ e, c10out = Except.error e →
      tool_execute c10out = [("success", PyVal.pbool false), ("error", PyVal.pstr e)]) :=
  tool_execute_total c10out (by decide)

end Clawdbot
